import Mathlib

/-!
Verification of the MCP scan orchestration and bounded result-aggregation
subsystem of trufflehog-with-mcp, shallowly embedded in Lean from the Go
source (pkg/mcp/internal: bytes_source.go, types.go, scanner, registry).
-/

set_option maxRecDepth 4096
set_option linter.unusedVariables false

namespace Trufflehog

/-- ASCII lowercasing of one character, as strings.ToLower acts on the ASCII
identifiers this code base uses. -/
def asciiToLower (c : Char) : Char :=
  if 65 ≤ c.toNat ∧ c.toNat ≤ 90 then Char.ofNat (c.toNat + 32) else c

/-- Model of Go strings.ToLower restricted to the ASCII identifiers this
code base uses (detector type names, filters). -/
def goToLower (s : String) : String :=
  String.mk (s.data.map asciiToLower)

/-- Model of Go strings.Contains: sub occurs as a contiguous substring of s.
The empty string is contained in every string, as in Go. -/
def strContains (s sub : String) : Bool :=
  (List.range (s.toList.length + 1)).any
    (fun i => ((s.toList.drop i).take sub.toList.length) == sub.toList)

theorem strContains_append_mid (a b c : String) :
    strContains (a ++ b ++ c) b = true := by
  unfold strContains
  rw [List.any_eq_true]
  refine ⟨a.toList.length, ?_, ?_⟩
  · rw [List.mem_range]
    have h1 : (a ++ b ++ c).toList = a.toList ++ b.toList ++ c.toList := by
      simp [String.toList]
    rw [h1]
    simp
    omega
  · have h1 : (a ++ b ++ c).toList = a.toList ++ (b.toList ++ c.toList) := by
      simp [String.toList]
    rw [h1, List.drop_left, List.take_left]
    simp

/-- Values stored in the generic string-keyed provenance map
(Go map values of static type any holding either a string or an int64 line number). -/
inductive MetaValue where
  | str (s : String)
  | int (i : Int)
deriving DecidableEq, Repr

/-- source_metadatapb.Filesystem: the fields read by convertSourceMetadata. -/
structure Filesystem where
  File : String
  Line : Int
deriving DecidableEq, Repr

/-- source_metadatapb.Git: the fields read by convertSourceMetadata. -/
structure Git where
  Repository : String
  Commit : String
  File : String
  Line : Int
deriving DecidableEq, Repr

/-- source_metadatapb.Github: the fields read by convertSourceMetadata. -/
structure Github where
  Repository : String
  File : String
  Commit : String
  Line : Int
deriving DecidableEq, Repr

/-- source_metadatapb.Gitlab: the fields read by convertSourceMetadata. -/
structure Gitlab where
  Repository : String
  File : String
  Line : Int
deriving DecidableEq, Repr

/-- The tagged union source_metadatapb.MetaData.Data. Each known wrapper
carries an optional payload message, reflecting that the inner protobuf
pointer may be nil in Go. All provenance kinds other than the five the
converter switches on are collapsed into otherKind (they all reach the
default branch of the type switch). -/
inductive MetaDataData where
  | filesystem (filesystem : Option Filesystem)
  | git (git : Option Git)
  | github (github : Option Github)
  | gitlab (gitlab : Option Gitlab)
  | stdin
  | otherKind
deriving DecidableEq, Repr

/-- source_metadatapb.MetaData: Data is an interface field and may be nil. -/
structure MetaData where
  Data : Option MetaDataData
deriving DecidableEq, Repr

/-- detectors.ResultWithMetadata: the fields read by ConvertResult.
DetectorType and DecoderType hold the string names of the protobuf enum
values (the Go code calls .String() on the enum). Raw is the raw secret
byte slice. verificationError models the VerificationError() accessor:
none when no verification error is recorded, otherwise the error text. -/
structure ResultWithMetadata where
  DetectorType : String
  DetectorName : String
  Verified : Bool
  Raw : List UInt8
  Redacted : String
  ExtraData : List (String × String)
  verificationError : Option String
  SourceMetadata : Option MetaData
  DecoderType : String
deriving DecidableEq, Repr

/-- internal.ScanResult (types.go). Raw holds the bytes of the Go string
field: the Go conversion string(r.Raw) is byte-preserving, so both sides
are modelled as byte lists. -/
structure ScanResult where
  DetectorType : String
  DetectorName : String
  Verified : Bool
  VerificationError : String
  Raw : List UInt8
  Redacted : String
  ExtraData : List (String × String)
  SourceMetadata : Option (List (String × MetaValue))
  DecoderType : String
deriving DecidableEq, Repr

/-- internal.convertSourceMetadata: converts protocol buffer source metadata
to a generic string-keyed map. A nil MetaData pointer yields nil (no map).
Otherwise the type switch on meta.Data fills a freshly allocated map; a
known wrapper whose inner payload pointer is nil leaves the map empty, and
a nil or unrecognized Data value hits the default branch. The Go map has
no ordering; the association list records the insertion order of the code. -/
def convertSourceMetadata (meta : Option MetaData) : Option (List (String × MetaValue)) :=
  match meta with
  | none => none
  | some m =>
    some (match m.Data with
      | some (.filesystem (some fs)) =>
        [("type", MetaValue.str "filesystem"), ("file", MetaValue.str fs.File)] ++
          (if fs.Line > 0 then [("line", MetaValue.int fs.Line)] else [])
      | some (.filesystem none) => []
      | some (.git (some g)) =>
        [("type", MetaValue.str "git"), ("repository", MetaValue.str g.Repository),
         ("commit", MetaValue.str g.Commit), ("file", MetaValue.str g.File)] ++
          (if g.Line > 0 then [("line", MetaValue.int g.Line)] else [])
      | some (.git none) => []
      | some (.github (some gh)) =>
        [("type", MetaValue.str "github"), ("repository", MetaValue.str gh.Repository),
         ("file", MetaValue.str gh.File)] ++
          (if gh.Line > 0 then [("line", MetaValue.int gh.Line)] else []) ++
          (if gh.Commit ≠ "" then [("commit", MetaValue.str gh.Commit)] else [])
      | some (.github none) => []
      | some (.gitlab (some gl)) =>
        [("type", MetaValue.str "gitlab"), ("repository", MetaValue.str gl.Repository),
         ("file", MetaValue.str gl.File)] ++
          (if gl.Line > 0 then [("line", MetaValue.int gl.Line)] else [])
      | some (.gitlab none) => []
      | some .stdin => [("type", MetaValue.str "stdin")]
      | some .otherKind => [("type", MetaValue.str "unknown")]
      | none => [("type", MetaValue.str "unknown")])

/-- internal.ConvertResult: converts a detectors.ResultWithMetadata to a
ScanResult. Field order follows the Go function: the struct literal copies
the scalar fields, then Raw is filled only for verified findings, then the
verification error text, then the provenance map only when SourceMetadata
is non-nil. -/
def ConvertResult (r : ResultWithMetadata) : ScanResult :=
  let result : ScanResult :=
    { DetectorType := r.DetectorType
      DetectorName := r.DetectorName
      Verified := r.Verified
      VerificationError := ""
      Raw := []
      Redacted := r.Redacted
      ExtraData := r.ExtraData
      SourceMetadata := none
      DecoderType := r.DecoderType }
  let result := if r.Verified then { result with Raw := r.Raw } else result
  let result :=
    match r.verificationError with
    | some e => { result with VerificationError := e }
    | none => result
  match r.SourceMetadata with
  | some m => { result with SourceMetadata := convertSourceMetadata (some m) }
  | none => result

/-- internal.ResultCollector: in-memory sink implementing the engine
Printer interface. The mutex only serializes access and has no value-level
content, so the state is the three data fields. maxResults is a Go int,
hence an Int (it may be negative). -/
structure ResultCollector where
  results : List ScanResult
  maxResults : Int
  truncated : Bool
deriving DecidableEq, Repr

/-- internal.NewResultCollector. -/
def NewResultCollector (maxResults : Int) : ResultCollector :=
  { results := [], maxResults := maxResults, truncated := false }

/-- internal.ResultCollector.Print: the state transition of one call, paired
with the error value returned to the producer (always nil in the source). -/
def ResultCollector.Print (c : ResultCollector) (r : ResultWithMetadata) :
    ResultCollector × Option String :=
  if c.maxResults > 0 ∧ (c.results.length : Int) ≥ c.maxResults then
    ({ c with truncated := true }, none)
  else
    ({ c with results := c.results ++ [ConvertResult r] }, none)

/-- internal.ResultCollector.Results (value view; the reference-level copy
semantics is modelled separately below). -/
def ResultCollector.Results (c : ResultCollector) : List ScanResult :=
  c.results

/-- internal.ResultCollector.IsTruncated. -/
def ResultCollector.IsTruncated (c : ResultCollector) : Bool :=
  c.truncated

/-- internal.ResultCollector.Count (a Go int). -/
def ResultCollector.Count (c : ResultCollector) : Int :=
  c.results.length

/-- A sequence of findings offered to one collector via Print, in offer order. -/
def printAll (c : ResultCollector) (rs : List ResultWithMetadata) : ResultCollector :=
  rs.foldl (fun s r => (s.Print r).1) c

theorem printAll_nil (c : ResultCollector) : printAll c [] = c := rfl

theorem printAll_cons (c : ResultCollector) (r : ResultWithMetadata)
    (rs : List ResultWithMetadata) :
    printAll c (r :: rs) = printAll (c.Print r).1 rs := rfl

theorem Print_state_full {c : ResultCollector} (r : ResultWithMetadata)
    (h : c.maxResults > 0 ∧ (c.results.length : Int) ≥ c.maxResults) :
    (c.Print r).1 = { c with truncated := true } := by
  simp [ResultCollector.Print, h]

theorem Print_state_keep {c : ResultCollector} (r : ResultWithMetadata)
    (h : ¬(c.maxResults > 0 ∧ (c.results.length : Int) ≥ c.maxResults)) :
    (c.Print r).1 = { c with results := c.results ++ [ConvertResult r] } := by
  simp [ResultCollector.Print, h]

/-- With a non-positive bound the collector keeps every offered finding and
never sets the truncated flag. -/
theorem printAll_unbounded (rs : List ResultWithMetadata) (c : ResultCollector)
    (h : c.maxResults ≤ 0) :
    printAll c rs = { c with results := c.results ++ rs.map ConvertResult } := by
  induction rs generalizing c with
  | nil => simp [printAll_nil]
  | cons r rest ih =>
    rw [printAll_cons, Print_state_keep r (by omega)]
    rw [ih _ (by simpa using h)]
    simp

/-- With a positive bound and a state not yet over the bound, a run of
offers appends exactly enough converted findings to fill the bound, and the
truncated flag is set exactly when the offers overflow it. -/
theorem printAll_bounded (rs : List ResultWithMetadata) (c : ResultCollector)
    (h : 0 < c.maxResults) (hk : c.results.length ≤ c.maxResults.toNat) :
    (printAll c rs).results = c.results ++
        (rs.map ConvertResult).take (c.maxResults.toNat - c.results.length) ∧
    (printAll c rs).truncated = (c.truncated ||
        decide (c.maxResults.toNat < c.results.length + rs.length)) ∧
    (printAll c rs).maxResults = c.maxResults := by
  induction rs generalizing c with
  | nil =>
    refine ⟨by simp [printAll_nil], ?_, by simp [printAll_nil]⟩
    rw [printAll_nil]
    simp only [List.length_nil, Nat.add_zero]
    rw [decide_eq_false (by omega), Bool.or_false]
  | cons r rest ih =>
    by_cases hfull : (c.results.length : Int) ≥ c.maxResults
    · have hkn : c.results.length = c.maxResults.toNat := by omega
      rw [printAll_cons, Print_state_full r ⟨h, hfull⟩]
      obtain ⟨ih1, ih2, ih3⟩ := ih { c with truncated := true }
        (by simpa using h) (by simpa using hk)
      have h0 : c.maxResults.toNat - c.results.length = 0 := by omega
      have hlt : c.maxResults.toNat < c.results.length + (r :: rest).length := by
        simp
        omega
      refine ⟨?_, ?_, ?_⟩
      · rw [ih1]
        simp [h0]
      · rw [ih2]
        simp
        exact Or.inr (by simpa using hlt)
      · rw [ih3]
    · rw [printAll_cons, Print_state_keep r (by tauto)]
      obtain ⟨ih1, ih2, ih3⟩ := ih { c with results := c.results ++ [ConvertResult r] }
        (by simpa using h) (by simp; omega)
      have hkk : c.results.length < c.maxResults.toNat := by omega
      have htake : c.maxResults.toNat - c.results.length =
          (c.maxResults.toNat - (c.results.length + 1)) + 1 := by omega
      refine ⟨?_, ?_, ?_⟩
      · rw [ih1]
        simp only [List.length_append, List.length_singleton, List.map_cons, htake,
          List.take_succ_cons, List.append_assoc, List.singleton_append]
      · rw [ih2]
        have harith : (c.maxResults.toNat < (c.results ++ [ConvertResult r]).length +
            rest.length) = (c.maxResults.toNat < c.results.length + (r :: rest).length) := by
          simp
          constructor <;> intro <;> omega
        simp only [harith]
      · rw [ih3]

/-- The collector state after offering a whole sequence to a fresh collector
with a non-negative bound. -/
theorem printAll_new (N : Int) (hN : 0 ≤ N) (rs : List ResultWithMetadata) :
    (printAll (NewResultCollector N) rs).results =
        (rs.map ConvertResult).take (if N = 0 then rs.length else N.toNat) ∧
    (printAll (NewResultCollector N) rs).truncated =
        decide (0 < N ∧ N < (rs.length : Int)) ∧
    (printAll (NewResultCollector N) rs).maxResults = N := by
  by_cases h0 : N = 0
  · subst h0
    rw [printAll_unbounded rs _ (by simp [NewResultCollector])]
    refine ⟨?_, by simp [NewResultCollector], by simp [NewResultCollector]⟩
    have htake : (rs.map ConvertResult).take rs.length = rs.map ConvertResult := by
      have h := List.take_length (rs.map ConvertResult)
      rw [List.length_map] at h
      exact h
    simp [NewResultCollector, htake]
  · have hpos : 0 < N := by omega
    obtain ⟨h1, h2, h3⟩ := printAll_bounded rs (NewResultCollector N)
      (by simpa [NewResultCollector]) (by simp [NewResultCollector])
    refine ⟨?_, ?_, by simpa [NewResultCollector] using h3⟩
    · rw [h1]
      simp [NewResultCollector, h0]
    · rw [h2]
      simp only [NewResultCollector, List.length_nil, Nat.zero_add, Bool.false_or,
        decide_eq_decide]
      omega

theorem take_length_map (rs : List ResultWithMetadata) :
    (rs.map ConvertResult).take rs.length = rs.map ConvertResult := by
  have h := List.take_length (rs.map ConvertResult)
  rw [List.length_map] at h
  exact h

/-- A concrete finding used by closed witness statements. -/
def sampleFinding (name : String) (v : Bool) : ResultWithMetadata :=
  { DetectorType := "AWS", DetectorName := name, Verified := v, Raw := [65, 66],
    Redacted := "A**", ExtraData := [("k", "v")], verificationError := none,
    SourceMetadata := none, DecoderType := "PLAIN" }

/-- C1: for every configured bound N at least 0 and every sequence of M findings
offered to one ResultCollector via Print: with N = 0 all M findings are kept and
IsTruncated is false; with positive N and M at most N all M are kept and
IsTruncated is false; with positive N and M over N exactly the first N findings
in offer order are kept and IsTruncated is true; Count is min M N for positive N
and M for N = 0; and Print never returns an error to the producer. -/
theorem c1_collector_bound (N : Int) (hN : 0 ≤ N) (rs : List ResultWithMetadata) :
    (N = 0 →
      (printAll (NewResultCollector N) rs).Results = rs.map ConvertResult ∧
      (printAll (NewResultCollector N) rs).IsTruncated = false) ∧
    (0 < N → (rs.length : Int) ≤ N →
      (printAll (NewResultCollector N) rs).Results = rs.map ConvertResult ∧
      (printAll (NewResultCollector N) rs).IsTruncated = false) ∧
    (0 < N → N < (rs.length : Int) →
      (printAll (NewResultCollector N) rs).Results = (rs.map ConvertResult).take N.toNat ∧
      (printAll (NewResultCollector N) rs).IsTruncated = true) ∧
    (printAll (NewResultCollector N) rs).Count =
      (if N = 0 then (rs.length : Int) else min (rs.length : Int) N) ∧
    (∀ c r, (ResultCollector.Print c r).2 = none) := by
  obtain ⟨h1, h2, h3⟩ := printAll_new N hN rs
  refine ⟨?_, ?_, ?_, ?_, ?_⟩
  · intro h0
    subst h0
    constructor
    · rw [ResultCollector.Results, h1]
      simp [take_length_map]
    · rw [ResultCollector.IsTruncated, h2]
      simp
  · intro hpos hle
    constructor
    · rw [ResultCollector.Results, h1, if_neg (by omega)]
      exact List.take_of_length_le (by simp; omega)
    · rw [ResultCollector.IsTruncated, h2]
      simp
      omega
  · intro hpos hgt
    constructor
    · rw [ResultCollector.Results, h1, if_neg (by omega)]
    · rw [ResultCollector.IsTruncated, h2]
      simp
      exact ⟨hpos, hgt⟩
  · rw [ResultCollector.Count, h1]
    by_cases h0 : N = 0
    · subst h0
      simp [take_length_map]
    · rw [if_neg h0, if_neg h0, List.length_take, List.length_map]
      omega
  · intro c r
    unfold ResultCollector.Print
    split <;> rfl

def c1rs : List ResultWithMetadata :=
  [sampleFinding "a" true, sampleFinding "b" false, sampleFinding "c" true]

/-- C1 witness: bound 2, three findings offered: the first two are kept and the
collector reports truncation. -/
theorem c1_collector_bound_witness :
    (printAll (NewResultCollector 2) c1rs).Results = (c1rs.map ConvertResult).take (2 : Int).toNat ∧
    (printAll (NewResultCollector 2) c1rs).IsTruncated = true :=
  (c1_collector_bound 2 (by decide) c1rs).2.2.1 (by decide) (by decide)

/-- C10: a negative maxResults makes the collector behave exactly as the
unbounded maxResults = 0 case: every offered finding is kept, Count equals the
number offered and IsTruncated stays false. -/
theorem c10_negative_bound_unbounded (N : Int) (hN : N < 0) (rs : List ResultWithMetadata) :
    (printAll (NewResultCollector N) rs).Results = rs.map ConvertResult ∧
    (printAll (NewResultCollector N) rs).Count = (rs.length : Int) ∧
    (printAll (NewResultCollector N) rs).IsTruncated = false := by
  rw [printAll_unbounded rs (NewResultCollector N) (by simp [NewResultCollector]; omega)]
  refine ⟨by simp [NewResultCollector, ResultCollector.Results], ?_,
    by simp [NewResultCollector, ResultCollector.IsTruncated]⟩
  simp [NewResultCollector, ResultCollector.Count]

def c10rs : List ResultWithMetadata :=
  [sampleFinding "w" true, sampleFinding "x" false, sampleFinding "y" true,
   sampleFinding "z" false]

/-- C10 witness: bound -1, four findings offered, all kept, not truncated. -/
theorem c10_negative_bound_unbounded_witness :
    (printAll (NewResultCollector (-1)) c10rs).Results = c10rs.map ConvertResult ∧
    (printAll (NewResultCollector (-1)) c10rs).Count = (c10rs.length : Int) ∧
    (printAll (NewResultCollector (-1)) c10rs).IsTruncated = false :=
  c10_negative_bound_unbounded (-1) (by decide) c10rs

/-- C2: ConvertResult copies the raw secret bytes into the output only when the
finding is verified; an unverified finding yields an empty Raw field regardless
of the input raw value, and a verified finding yields the input raw bytes
unchanged. -/
theorem c2_raw_only_when_verified (r : ResultWithMetadata) :
    (r.Verified = false → (ConvertResult r).Raw = []) ∧
    (r.Verified = true → (ConvertResult r).Raw = r.Raw) := by
  obtain ⟨dt, dn, v, raw, red, ed, ve, sm, dec⟩ := r
  constructor <;> intro hv <;> subst hv <;>
    cases ve <;> cases sm <;> simp [ConvertResult]

def c2unv : ResultWithMetadata := sampleFinding "n" false

def c2ver : ResultWithMetadata := sampleFinding "n" true

/-- C2 witness: an unverified finding with nonempty raw input produces empty Raw;
the same finding verified produces its raw bytes unchanged. -/
theorem c2_raw_only_when_verified_witness :
    (ConvertResult c2unv).Raw = [] ∧ (ConvertResult c2ver).Raw = [65, 66] :=
  ⟨(c2_raw_only_when_verified c2unv).1 rfl, (c2_raw_only_when_verified c2ver).2 rfl⟩

/-- The provenance field of a converted finding is exactly the converted source
metadata of the input. -/
theorem ConvertResult_sourceMetadata (r : ResultWithMetadata) :
    (ConvertResult r).SourceMetadata = convertSourceMetadata r.SourceMetadata := by
  obtain ⟨dt, dn, v, raw, red, ed, ve, sm, dec⟩ := r
  cases v <;> cases ve <;> cases sm <;> simp [ConvertResult, convertSourceMetadata]

/-- C8 (amended): ConvertResult copies the detector identifier, verification
boolean, redacted string, extra-data mapping, decoder identifier and the
engine-provided display name verbatim; when the engine provides no display name
the output display name is left empty, with no fallback to the identifier. -/
theorem c8_convert_copies_amended (r : ResultWithMetadata) :
    (ConvertResult r).DetectorType = r.DetectorType ∧
    (ConvertResult r).DetectorName = r.DetectorName ∧
    (ConvertResult r).Verified = r.Verified ∧
    (ConvertResult r).Redacted = r.Redacted ∧
    (ConvertResult r).ExtraData = r.ExtraData ∧
    (ConvertResult r).DecoderType = r.DecoderType := by
  obtain ⟨dt, dn, v, raw, red, ed, ve, sm, dec⟩ := r
  cases v <;> cases ve <;> cases sm <;> simp [ConvertResult]

def c8NoName : ResultWithMetadata :=
  { DetectorType := "AWS", DetectorName := "", Verified := false, Raw := [],
    Redacted := "", ExtraData := [], verificationError := none,
    SourceMetadata := none, DecoderType := "PLAIN" }

/-- C8 counterexample: the engine provides no display name and the identifier is
AWS; the claim says the display name falls back to the identifier, but the code
leaves it empty. -/
theorem c8_no_display_name_fallback :
    c8NoName.DetectorName = "" ∧ c8NoName.DetectorType = "AWS" ∧
    (ConvertResult c8NoName).DetectorName = "" ∧
    (ConvertResult c8NoName).DetectorName ≠ c8NoName.DetectorType := by
  refine ⟨rfl, rfl, rfl, ?_⟩
  decide

/-- C4 (amended): a missing provenance object yields no provenance map at all;
a present provenance object with a nil or unrecognized kind yields exactly the
map with the single entry type = unknown; each known kind whose payload message
is present yields a map with a type discriminator and its kind-specific fields,
line numbers only when positive and the github commit only when non-empty; a
known-kind wrapper whose payload message is absent yields an empty map. -/
theorem c4_provenance_map_amended (r : ResultWithMetadata) :
    (r.SourceMetadata = none → (ConvertResult r).SourceMetadata = none) ∧
    (∀ m, r.SourceMetadata = some m → m.Data = none →
      (ConvertResult r).SourceMetadata = some [("type", MetaValue.str "unknown")]) ∧
    (∀ m, r.SourceMetadata = some m → m.Data = some MetaDataData.otherKind →
      (ConvertResult r).SourceMetadata = some [("type", MetaValue.str "unknown")]) ∧
    (∀ m fs, r.SourceMetadata = some m → m.Data = some (MetaDataData.filesystem (some fs)) →
      (ConvertResult r).SourceMetadata =
        some ([("type", MetaValue.str "filesystem"), ("file", MetaValue.str fs.File)] ++
          (if fs.Line > 0 then [("line", MetaValue.int fs.Line)] else []))) ∧
    (∀ m g, r.SourceMetadata = some m → m.Data = some (MetaDataData.git (some g)) →
      (ConvertResult r).SourceMetadata =
        some ([("type", MetaValue.str "git"), ("repository", MetaValue.str g.Repository),
               ("commit", MetaValue.str g.Commit), ("file", MetaValue.str g.File)] ++
          (if g.Line > 0 then [("line", MetaValue.int g.Line)] else []))) ∧
    (∀ m gh, r.SourceMetadata = some m → m.Data = some (MetaDataData.github (some gh)) →
      (ConvertResult r).SourceMetadata =
        some ([("type", MetaValue.str "github"), ("repository", MetaValue.str gh.Repository),
               ("file", MetaValue.str gh.File)] ++
          (if gh.Line > 0 then [("line", MetaValue.int gh.Line)] else []) ++
          (if gh.Commit ≠ "" then [("commit", MetaValue.str gh.Commit)] else []))) ∧
    (∀ m gl, r.SourceMetadata = some m → m.Data = some (MetaDataData.gitlab (some gl)) →
      (ConvertResult r).SourceMetadata =
        some ([("type", MetaValue.str "gitlab"), ("repository", MetaValue.str gl.Repository),
               ("file", MetaValue.str gl.File)] ++
          (if gl.Line > 0 then [("line", MetaValue.int gl.Line)] else []))) ∧
    (∀ m, r.SourceMetadata = some m → m.Data = some MetaDataData.stdin →
      (ConvertResult r).SourceMetadata = some [("type", MetaValue.str "stdin")]) ∧
    (∀ m, r.SourceMetadata = some m →
      (m.Data = some (MetaDataData.filesystem none) ∨ m.Data = some (MetaDataData.git none) ∨
       m.Data = some (MetaDataData.github none) ∨ m.Data = some (MetaDataData.gitlab none)) →
      (ConvertResult r).SourceMetadata = some []) := by
  refine ⟨?_, ?_, ?_, ?_, ?_, ?_, ?_, ?_, ?_⟩
  · intro h
    rw [ConvertResult_sourceMetadata, h]
    rfl
  · intro m hm hd
    rw [ConvertResult_sourceMetadata, hm]
    simp [convertSourceMetadata, hd]
  · intro m hm hd
    rw [ConvertResult_sourceMetadata, hm]
    simp [convertSourceMetadata, hd]
  · intro m fs hm hd
    rw [ConvertResult_sourceMetadata, hm]
    simp [convertSourceMetadata, hd]
  · intro m g hm hd
    rw [ConvertResult_sourceMetadata, hm]
    simp [convertSourceMetadata, hd]
  · intro m gh hm hd
    rw [ConvertResult_sourceMetadata, hm]
    simp [convertSourceMetadata, hd]
  · intro m gl hm hd
    rw [ConvertResult_sourceMetadata, hm]
    simp [convertSourceMetadata, hd]
  · intro m hm hd
    rw [ConvertResult_sourceMetadata, hm]
    simp [convertSourceMetadata, hd]
  · intro m hm hd
    rcases hd with hd | hd | hd | hd <;> rw [ConvertResult_sourceMetadata, hm] <;>
      simp [convertSourceMetadata, hd]

def c4fs : ResultWithMetadata :=
  { sampleFinding "n" false with
    SourceMetadata := some { Data := some (MetaDataData.filesystem
      (some { File := "a.txt", Line := 7 })) } }

/-- C4 witness: a filesystem provenance with a present payload and positive line
converts to the map with type, file and line entries. -/
theorem c4_provenance_map_amended_witness :
    (ConvertResult c4fs).SourceMetadata =
      some [("type", MetaValue.str "filesystem"), ("file", MetaValue.str "a.txt"),
            ("line", MetaValue.int 7)] := by
  have h := (c4_provenance_map_amended c4fs).2.2.2.1
    { Data := some (MetaDataData.filesystem (some { File := "a.txt", Line := 7 })) }
    { File := "a.txt", Line := 7 } rfl rfl
  exact h.trans (by decide)

def c4NilPayload : ResultWithMetadata :=
  { sampleFinding "n" false with
    SourceMetadata := some { Data := some (MetaDataData.filesystem none) } }

/-- C4 counterexample: a present provenance object of the known kind filesystem
whose payload message is absent converts to an empty map carrying no type
discriminator at all, while the claim requires every known kind to produce a map
with a type entry. -/
theorem c4_known_kind_empty_payload :
    c4NilPayload.SourceMetadata = some { Data := some (MetaDataData.filesystem none) } ∧
    (ConvertResult c4NilPayload).SourceMetadata = some [] ∧
    (([] : List (String × MetaValue)).lookup "type") = none := by
  refine ⟨rfl, ?_, rfl⟩
  decide

/-- A more flexible substring witness: if the character list of s splits as
a ++ sub ++ c then sub is contained in s. -/
theorem strContains_of_parts (s sub : String) (a c : List Char)
    (h : s.toList = a ++ sub.toList ++ c) : strContains s sub = true := by
  unfold strContains
  rw [List.any_eq_true]
  refine ⟨a.length, ?_, ?_⟩
  · rw [List.mem_range, h]
    simp
    omega
  · rw [h, List.append_assoc, List.drop_left, List.take_left]
    simp

/-- internal.ScanSummary (types.go). The uint64 counters are modelled as Nat,
Duration as the int64 nanosecond count, TotalResults as a Go int. -/
structure ScanSummary where
  ChunksScanned : Nat
  BytesScanned : Nat
  VerifiedSecrets : Nat
  UnverifiedSecrets : Nat
  Duration : Int
  TotalResults : Int
  Truncated : Bool
deriving DecidableEq, Repr

/-- internal.ScanResponse (types.go). -/
structure ScanResponse where
  Results : List ScanResult
  Summary : ScanSummary
deriving DecidableEq, Repr

/-- internal.ScannerConfig. -/
structure ScannerConfig where
  Concurrency : Int
  Verify : Bool
  MaxResults : Int
  Timeout : Int
  IncludeDetectors : String
  ExcludeDetectors : String
deriving DecidableEq, Repr

/-- internal.ScanOptions. -/
structure ScanOptions where
  Verify : Bool
  IncludeDetectors : List String
  ExcludeDetectors : List String
deriving DecidableEq, Repr

/-- Scanner.buildDetectorFilter: comma-joins the detector names, empty list
gives the empty string. -/
def buildDetectorFilter (detectors : List String) : String :=
  if detectors.length = 0 then "" else String.intercalate "," detectors

/-- The counters the engine reports on completion (engine.GetMetrics). -/
structure EngineMetrics where
  ChunksScanned : Nat
  BytesScanned : Nat
  VerifiedSecretsFound : Nat
  UnverifiedSecretsFound : Nat
  ScanDuration : Int
deriving DecidableEq, Repr

/-- The external detection pipeline driven by ScanBytes, abstracted as an
oracle: given the effective verify flag, the include and exclude filter
strings and the input bytes, it either fails (engine construction, source
enumeration or completion error) or reports the findings it pushed to the
collector, in arrival order, together with its metrics. -/
def BytesEngine : Type :=
  Bool → String → String → List UInt8 → Except String (List ResultWithMetadata × EngineMetrics)

/-- Scanner.ScanBytes: nil options fall back to the config verify setting;
empty data short-circuits to an empty response with a zero-value summary
before any pipeline object is built; otherwise the pipeline runs, every
emitted finding is offered to a fresh collector bounded by cfg.MaxResults,
and the response is assembled from the collector state and the engine
metrics. -/
def ScanBytes (cfg : ScannerConfig) (data : List UInt8) (opts : Option ScanOptions)
    (engine : BytesEngine) : Except String ScanResponse :=
  let o : ScanOptions := match opts with
    | none => { Verify := cfg.Verify, IncludeDetectors := [], ExcludeDetectors := [] }
    | some o => o
  if data.length = 0 then
    .ok { Results := [],
          Summary := { ChunksScanned := 0, BytesScanned := 0, VerifiedSecrets := 0,
                       UnverifiedSecrets := 0, Duration := 0, TotalResults := 0,
                       Truncated := false } }
  else
    match engine o.Verify (buildDetectorFilter o.IncludeDetectors)
        (buildDetectorFilter o.ExcludeDetectors) data with
    | .error e => .error e
    | .ok (findings, metrics) =>
      let c := printAll (NewResultCollector cfg.MaxResults) findings
      .ok { Results := c.Results,
            Summary := { ChunksScanned := metrics.ChunksScanned,
                         BytesScanned := metrics.BytesScanned,
                         VerifiedSecrets := metrics.VerifiedSecretsFound,
                         UnverifiedSecrets := metrics.UnverifiedSecretsFound,
                         Duration := metrics.ScanDuration,
                         TotalResults := c.Count,
                         Truncated := c.IsTruncated } }

/-- The UTF-8 encoding of one character, as the Go conversion to a byte slice
performs it. -/
def utf8EncodeChar (ch : Char) : List UInt8 :=
  let n := ch.toNat
  if n < 0x80 then [UInt8.ofNat n]
  else if n < 0x800 then
    [UInt8.ofNat (0xC0 ||| (n >>> 6)), UInt8.ofNat (0x80 ||| (n &&& 0x3F))]
  else if n < 0x10000 then
    [UInt8.ofNat (0xE0 ||| (n >>> 12)), UInt8.ofNat (0x80 ||| ((n >>> 6) &&& 0x3F)),
     UInt8.ofNat (0x80 ||| (n &&& 0x3F))]
  else
    [UInt8.ofNat (0xF0 ||| (n >>> 18)), UInt8.ofNat (0x80 ||| ((n >>> 12) &&& 0x3F)),
     UInt8.ofNat (0x80 ||| ((n >>> 6) &&& 0x3F)), UInt8.ofNat (0x80 ||| (n &&& 0x3F))]

/-- The byte slice a Go string conversion produces: the UTF-8 bytes of the text. -/
def goBytesOfString (s : String) : List UInt8 :=
  (s.data.map utf8EncodeChar).flatten

/-- Scanner.ScanText: converts the text to bytes and delegates to ScanBytes. -/
def ScanText (cfg : ScannerConfig) (text : String) (opts : Option ScanOptions)
    (engine : BytesEngine) : Except String ScanResponse :=
  ScanBytes cfg (goBytesOfString text) opts engine

/-- C7: scanning a zero-length buffer returns, for every configuration, option
value and pipeline, an empty result list and a summary with every counter zero
and truncated false; the same holds for ScanText of the empty string; and the
response does not depend on the pipeline at all, showing the pipeline is not
invoked. -/
theorem c7_empty_input_empty_report (cfg : ScannerConfig) (opts : Option ScanOptions)
    (engine engine2 : BytesEngine) :
    ScanBytes cfg [] opts engine =
      .ok { Results := [],
            Summary := { ChunksScanned := 0, BytesScanned := 0, VerifiedSecrets := 0,
                         UnverifiedSecrets := 0, Duration := 0, TotalResults := 0,
                         Truncated := false } } ∧
    ScanText cfg "" opts engine =
      .ok { Results := [],
            Summary := { ChunksScanned := 0, BytesScanned := 0, VerifiedSecrets := 0,
                         UnverifiedSecrets := 0, Duration := 0, TotalResults := 0,
                         Truncated := false } } ∧
    ScanBytes cfg [] opts engine = ScanBytes cfg [] opts engine2 := by
  refine ⟨rfl, rfl, rfl⟩

/-- The two file kinds os.Stat distinguishes for this code path. -/
inductive FileKind where
  | regular
  | directory
deriving DecidableEq, Repr

/-- The visible state of the file system: which paths exist and their kind. -/
def Disk : Type :=
  List (String × FileKind)

/-- Model of the os.Stat existence and kind probe: none when the path does not
exist. -/
def osStat (disk : Disk) (path : String) : Option FileKind :=
  List.lookup path disk

/-- The external filesystem-source pipeline driven by scanFilesystem,
abstracted as an oracle over the effective verify flag, the filter strings
and the scanned paths. -/
def FsEngine : Type :=
  Bool → String → String → List String → Except String (List ResultWithMetadata × EngineMetrics)

/-- Scanner.scanFilesystem: runs the pipeline over the given paths with a
fresh bounded collector and assembles the response, exactly as ScanBytes does. -/
def scanFilesystem (cfg : ScannerConfig) (paths : List String) (opts : Option ScanOptions)
    (engine : FsEngine) : Except String ScanResponse :=
  let o : ScanOptions := match opts with
    | none => { Verify := cfg.Verify, IncludeDetectors := [], ExcludeDetectors := [] }
    | some o => o
  match engine o.Verify (buildDetectorFilter o.IncludeDetectors)
      (buildDetectorFilter o.ExcludeDetectors) paths with
  | .error e => .error e
  | .ok (findings, metrics) =>
    let c := printAll (NewResultCollector cfg.MaxResults) findings
    .ok { Results := c.Results,
          Summary := { ChunksScanned := metrics.ChunksScanned,
                       BytesScanned := metrics.BytesScanned,
                       VerifiedSecrets := metrics.VerifiedSecretsFound,
                       UnverifiedSecrets := metrics.UnverifiedSecretsFound,
                       Duration := metrics.ScanDuration,
                       TotalResults := c.Count,
                       Truncated := c.IsTruncated } }

/-- Scanner.ScanFile: only the existence of the path is validated (os.Stat
followed by os.IsNotExist); any existing path, directory included, proceeds
to the filesystem scan. -/
def ScanFile (cfg : ScannerConfig) (disk : Disk) (path : String) (opts : Option ScanOptions)
    (engine : FsEngine) : Except String ScanResponse :=
  match osStat disk path with
  | none => .error ("file does not exist: " ++ path)
  | some _ => scanFilesystem cfg [path] opts engine

/-- Scanner.ScanDirectory: a missing path fails as not found, an existing
non-directory fails as not a directory, a directory proceeds to the
filesystem scan. -/
def ScanDirectory (cfg : ScannerConfig) (disk : Disk) (path : String)
    (opts : Option ScanOptions) (engine : FsEngine) : Except String ScanResponse :=
  match osStat disk path with
  | none => .error ("directory does not exist: " ++ path)
  | some info =>
    if info = FileKind.directory then scanFilesystem cfg [path] opts engine
    else .error ("path is not a directory: " ++ path)

/-- A sample scanner configuration for closed statements. -/
def cfg0 : ScannerConfig :=
  { Concurrency := 1, Verify := false, MaxResults := 1000, Timeout := 300,
    IncludeDetectors := "", ExcludeDetectors := "" }

/-- An engine metrics value with all counters zero. -/
def zeroEngineMetrics : EngineMetrics :=
  { ChunksScanned := 0, BytesScanned := 0, VerifiedSecretsFound := 0,
    UnverifiedSecretsFound := 0, ScanDuration := 0 }

/-- A pipeline oracle that completes with no findings. -/
def okFsEngine : FsEngine :=
  fun _ _ _ _ => .ok ([], zeroEngineMetrics)

/-- A pipeline oracle that always fails. -/
def failFsEngine : FsEngine :=
  fun _ _ _ _ => .error "pipeline failure"

/-- C3 counterexample: the path exists and is a directory; the claim says
ScanFile must fail with a not-found error, but the code only probes existence
and happily scans the directory through the filesystem source. -/
theorem c3_scanfile_accepts_directory :
    osStat [("d", FileKind.directory)] "d" = some FileKind.directory ∧
    ScanFile cfg0 [("d", FileKind.directory)] "d" none okFsEngine =
      .ok { Results := [],
            Summary := { ChunksScanned := 0, BytesScanned := 0, VerifiedSecrets := 0,
                         UnverifiedSecrets := 0, Duration := 0, TotalResults := 0,
                         Truncated := false } } := by
  constructor <;> rfl

/-- C3 (amended): ScanFile fails with a not-found error whose message includes
the path exactly when the path does not exist (an existing directory is
accepted and handed to the filesystem scan); ScanDirectory fails with a
not-found error when the path is missing and with an error mentioning not a
directory when the path exists as a regular file; every failure is decided
before the pipeline runs, the result does not depend on the pipeline and no
report is produced. -/
theorem c3_path_validation_amended (cfg : ScannerConfig) (disk : Disk) (path : String)
    (opts : Option ScanOptions) (engine engine2 : FsEngine) :
    (osStat disk path = none →
      ScanFile cfg disk path opts engine = .error ("file does not exist: " ++ path) ∧
      strContains ("file does not exist: " ++ path) path = true ∧
      ScanFile cfg disk path opts engine = ScanFile cfg disk path opts engine2) ∧
    (osStat disk path = none →
      ScanDirectory cfg disk path opts engine =
        .error ("directory does not exist: " ++ path) ∧
      strContains ("directory does not exist: " ++ path) path = true ∧
      ScanDirectory cfg disk path opts engine = ScanDirectory cfg disk path opts engine2) ∧
    (osStat disk path = some FileKind.regular →
      ScanDirectory cfg disk path opts engine =
        .error ("path is not a directory: " ++ path) ∧
      strContains ("path is not a directory: " ++ path) "not a directory" = true ∧
      strContains ("path is not a directory: " ++ path) path = true ∧
      ScanDirectory cfg disk path opts engine = ScanDirectory cfg disk path opts engine2) ∧
    (∀ k, osStat disk path = some k →
      ScanFile cfg disk path opts engine = scanFilesystem cfg [path] opts engine) ∧
    (osStat disk path = some FileKind.directory →
      ScanDirectory cfg disk path opts engine = scanFilesystem cfg [path] opts engine) := by
  refine ⟨?_, ?_, ?_, ?_, ?_⟩
  · intro h
    refine ⟨by simp [ScanFile, h], ?_, by simp [ScanFile, h]⟩
    exact strContains_of_parts _ _ ("file does not exist: ".toList) []
      (by simp [String.toList])
  · intro h
    refine ⟨by simp [ScanDirectory, h], ?_, by simp [ScanDirectory, h]⟩
    exact strContains_of_parts _ _ ("directory does not exist: ".toList) []
      (by simp [String.toList])
  · intro h
    refine ⟨by simp [ScanDirectory, h], ?_, ?_, by simp [ScanDirectory, h]⟩
    · refine strContains_of_parts _ _ ("path is ".toList) (": ".toList ++ path.toList) ?_
      have h2 : ("path is not a directory: " ++ path).toList =
          "path is not a directory: ".toList ++ path.toList := by
        simp [String.toList]
      have hlit : "path is not a directory: ".toList =
          "path is ".toList ++ ("not a directory".toList ++ ": ".toList) := by decide
      rw [h2, hlit]
      simp
    · exact strContains_of_parts _ _ ("path is not a directory: ".toList) []
        (by simp [String.toList])
  · intro k h
    simp [ScanFile, h]
  · intro h
    simp [ScanDirectory, h]

/-- C3 witness: a missing path p on an empty disk: ScanFile fails with the
not-found message containing the path, independently of the pipeline. -/
theorem c3_path_validation_amended_witness :
    ScanFile cfg0 [] "p" none okFsEngine = .error ("file does not exist: " ++ "p") ∧
    strContains ("file does not exist: " ++ "p") "p" = true ∧
    ScanFile cfg0 [] "p" none okFsEngine = ScanFile cfg0 [] "p" none failFsEngine :=
  (c3_path_validation_amended cfg0 [] "p" none okFsEngine failFsEngine).1 rfl

/-- internal.DetectorInfo (types.go), value view: Keywords as the list of
keyword strings. -/
structure DetectorInfo where
  «Type» : String
  Name : String
  Description : String
  Keywords : List String
  Version : Int
deriving DecidableEq, Repr

/-- The registry map built by loadDefaults: each descriptor stored under the
lowercased type name. -/
def RegistryMap : Type :=
  List (String × DetectorInfo)

/-- DetectorRegistry.List, with the iteration order of the Go map made
explicit as a parameter: each call ranges over the map in an order the
runtime chooses and the function does not control. In that order, every
descriptor whose lowercased type name contains the lowercased filter is
appended; an empty filter keeps everything; includeDeprecated is accepted
and ignored, as in the source. -/
def ListWithOrder (reg : RegistryMap) (order : List String) (filter : String)
    (includeDeprecated : Bool) : List DetectorInfo :=
  let f := goToLower filter
  (order.filterMap (fun k => List.lookup k reg)).filter
    (fun info => f == "" || strContains (goToLower info.«Type») f)

def c6InfoAws : DetectorInfo :=
  { «Type» := "AWS", Name := "AWS", Description := "aws credentials",
    Keywords := ["AKIA"], Version := 0 }

def c6InfoAzure : DetectorInfo :=
  { «Type» := "Azure", Name := "Azure", Description := "azure credentials",
    Keywords := ["azure"], Version := 0 }

def c6Reg : RegistryMap :=
  [("aws", c6InfoAws), ("azure", c6InfoAzure)]

/-- C6: the listing order is whatever order the Go runtime iterates the
registry map in, and that order is chosen per call: on a fixed two-detector
registry, the two key orders are both permutations of the stored keys, so
both are possible iterations of the same unchanged map, and they produce
different listings. The code therefore does not guarantee the stable
within-process order the claim requires. -/
theorem c6_list_order_unstable :
    List.Perm ["aws", "azure"] (c6Reg.map Prod.fst) ∧
    List.Perm ["azure", "aws"] (c6Reg.map Prod.fst) ∧
    ListWithOrder c6Reg ["aws", "azure"] "" false = [c6InfoAws, c6InfoAzure] ∧
    ListWithOrder c6Reg ["azure", "aws"] "" false = [c6InfoAzure, c6InfoAws] ∧
    ListWithOrder c6Reg ["aws", "azure"] "" false ≠
      ListWithOrder c6Reg ["azure", "aws"] "" false := by
  refine ⟨by decide, by decide, by decide, by decide, by decide⟩

/-- The Go slice heap: a Keywords field holds an address of a shared backing
array in this store. -/
def SliceHeap : Type :=
  List (List String)

/-- Dereference a slice header. -/
def sliceRead (h : SliceHeap) (addr : Nat) : List String :=
  h.getD addr []

/-- An element assignment through a slice header: keywords at index i are
overwritten in the shared backing array. -/
def sliceWrite (h : SliceHeap) (addr i : Nat) (v : String) : SliceHeap :=
  h.set addr ((h.getD addr []).set i v)

/-- internal.DetectorInfo with the reference nature of the Keywords slice
made explicit: the field stores the slice header, and a Go struct value copy
duplicates the header, not the backing array. -/
structure DetectorInfoRef where
  «Type» : String
  Name : String
  Description : String
  Keywords : Nat
  Version : Int
deriving DecidableEq, Repr

/-- The registry map at the reference level. -/
def RegistryRefMap : Type :=
  List (String × DetectorInfoRef)

/-- DetectorRegistry.GetInfo: lowercases the identifier, fails for an
unrecognized type, and on success returns the struct value copy the source makes
(infoCopy := info); the copy carries the same Keywords slice header as the
stored descriptor. -/
def GetInfo (reg : RegistryRefMap) (detectorType : String) : Except String DetectorInfoRef :=
  match List.lookup (goToLower detectorType) reg with
  | none => .error ("unknown detector type: " ++ detectorType)
  | some info => .ok info

def c9Aws : DetectorInfoRef :=
  { «Type» := "AWS", Name := "AWS", Description := "aws credentials",
    Keywords := 0, Version := 0 }

def c9Reg : RegistryRefMap :=
  [("aws", c9Aws)]

def c9Heap : SliceHeap :=
  [["aws", "amazon"]]

/-- C9: lookup is case-insensitive and an unknown identifier fails, as
claimed; but the returned descriptor is only a struct value copy: its
Keywords field is the same slice header the registry stores, so a caller
writing keywords[0] through the returned copy overwrites the backing array
the registry descriptor dereferences — the copy is not defensive for the
keywords, refuting the claimed mutation independence. -/
theorem c9_getinfo_shared_keywords :
    GetInfo c9Reg "AWS" = .ok c9Aws ∧
    GetInfo c9Reg "aws" = .ok c9Aws ∧
    GetInfo c9Reg "Aws" = .ok c9Aws ∧
    GetInfo c9Reg "nope" = .error ("unknown detector type: " ++ "nope") ∧
    sliceRead c9Heap c9Aws.Keywords = ["aws", "amazon"] ∧
    sliceRead (sliceWrite c9Heap c9Aws.Keywords 0 "evil") c9Aws.Keywords =
      ["evil", "amazon"] := by
  refine ⟨rfl, rfl, rfl, rfl, by decide, by decide⟩

/-- The Go heap of map objects of type map from string to string: an
ExtraData field holds an address into this store (or none for a nil map). -/
def StrMapHeap : Type :=
  List (List (String × String))

/-- Dereference a map reference. -/
def mapRead (h : StrMapHeap) (addr : Nat) : List (String × String) :=
  h.getD addr []

/-- Insert or replace one key in a map object. -/
def mapUpsert (m : List (String × String)) (k v : String) : List (String × String) :=
  if m.any (fun p => p.1 == k) then m.map (fun p => if p.1 == k then (k, v) else p)
  else m ++ [(k, v)]

/-- A map assignment through a map reference: the shared map object at the
address is updated in place. -/
def mapWrite (h : StrMapHeap) (addr : Nat) (k v : String) : StrMapHeap :=
  h.set addr (mapUpsert (h.getD addr []) k v)

/-- internal.ScanResult with the reference nature of its two map fields made
explicit: ExtraData and SourceMetadata hold Go map references; a struct value
copy duplicates the references, not the maps. -/
structure ScanResultRef where
  DetectorType : String
  DetectorName : String
  Verified : Bool
  VerificationError : String
  Raw : String
  Redacted : String
  ExtraData : Option Nat
  SourceMetadata : Option Nat
  DecoderType : String
deriving DecidableEq, Repr

/-- internal.ResultCollector at the reference level. -/
structure ResultCollectorRef where
  results : List ScanResultRef
  maxResults : Int
  truncated : Bool
deriving DecidableEq, Repr

/-- internal.ResultCollector.Results at the reference level: allocate a new
slice of the same length and copy the stored element structs into it, so
every returned element carries exactly the map references of the stored one. -/
def ResultCollectorRef.Results (c : ResultCollectorRef) : List ScanResultRef :=
  c.results.map (fun r => r)

def c5Stored : ScanResultRef :=
  { DetectorType := "AWS", DetectorName := "AWS", Verified := true,
    VerificationError := "", Raw := "", Redacted := "A**", ExtraData := some 0,
    SourceMetadata := none, DecoderType := "PLAIN" }

def c5Collector : ResultCollectorRef :=
  { results := [c5Stored], maxResults := 10, truncated := false }

def c5Heap : StrMapHeap :=
  [[("account", "123456789")]]

/-- C5: Results copies only the struct values: the returned element equals the
stored element, map reference included, so the returned copy and the internal
state dereference the same map object at address 0. A caller assignment into
the returned extra-data map (the mapWrite below) changes what the stored
element — and any other returned copy — reads back: the returned copies are
not independent of the collector state, refuting the claimed deep-copy
independence and the source comment that the copy prevents external
modification. -/
theorem c5_results_copy_shares_maps :
    c5Collector.Results = [c5Stored] ∧
    c5Stored.ExtraData = some 0 ∧
    mapRead c5Heap 0 = [("account", "123456789")] ∧
    mapRead (mapWrite c5Heap 0 "account" "evil") 0 = [("account", "evil")] := by
  refine ⟨by decide, rfl, by decide, by decide⟩
